import Mathlib

/-!
Shallow embedding of `src/export_package_apps.py` (windows-ps-tools).

Python strings are modelled as Lean `String`; the Python string operations
used by the source (`split`, `strip`, `startswith`, `in`, slicing) are
re-implemented below on `String.data` so that every definition is
kernel-executable.  External processes, the system clock and file-system
writes are modelled as explicit oracle inputs (`LaunchOutcome`,
`ResolveEnv`, `ExportEnv`): the oracle says what the outside world did,
and the embedded function computes exactly what the Python code would
then compute.
-/

/-- Python's default whitespace set for `str.strip` (ASCII part; the
source only ever strips console output). -/
def isPySpace (c : Char) : Bool :=
  c = ' ' || c = '\t' || c = '\n' || c = '\r' || c = '\x0b' || c = '\x0c'

/-- `str.strip()` on a character list. -/
def pyStripList (l : List Char) : List Char :=
  ((l.dropWhile isPySpace).reverse.dropWhile isPySpace).reverse

/-- `str.strip()`. -/
def pyStrip (s : String) : String := ⟨pyStripList s.data⟩

/-- `str.startswith(p)`. -/
def pyStartsWith (s p : String) : Bool := p.data.isPrefixOf s.data

/-- `sub in s` (substring containment) on character lists. -/
def containsSub : List Char → List Char → Bool
  | [], sub => sub.isEmpty
  | c :: rest, sub => sub.isPrefixOf (c :: rest) || containsSub rest sub

/-- Python's `sub in s` substring test. -/
def pyContains (s sub : String) : Bool := containsSub s.data sub.data

/-- `s[n:]` (drop the first `n` code points, like Python slicing). -/
def pyDrop (s : String) (n : Nat) : String := ⟨s.data.drop n⟩

/-- Worker for `str.split(sep)` with a non-empty separator; `fuel`
bounds the recursion (any `fuel ≥ l.length` gives Python's behaviour). -/
def pySplitAux (sep : List Char) : Nat → List Char → List Char → List (List Char)
  | _, [], acc => [acc.reverse]
  | 0, s, acc => [acc.reverse ++ s]
  | fuel + 1, c :: rest, acc =>
    if sep.isPrefixOf (c :: rest) then
      acc.reverse :: pySplitAux sep fuel ((c :: rest).drop sep.length) []
    else
      pySplitAux sep fuel rest (c :: acc)

/-- Python's `s.split(sep)` for a non-empty separator. -/
def pySplit (s sep : String) : List String :=
  (pySplitAux sep.data s.data.length s.data []).map (fun l => (⟨l⟩ : String))

/-- Association-list lookup modelling Python `dict` access / `dict.get`. -/
def dictGet {α : Type} : List (String × α) → String → Option α
  | [], _ => none
  | (a, b) :: rest, k => if a == k then some b else dictGet rest k

/-- `d[k] = v` on a Python dict: replace the first binding of `k` in
place, otherwise append at the end (insertion order preserved). -/
def dictInsert {α : Type} : List (String × α) → String → α → List (String × α)
  | [], k, v => [(k, v)]
  | (a, b) :: rest, k, v =>
    if a == k then (k, v) :: rest else (a, b) :: dictInsert rest k v

/-- A JSON object value inside the winget cache file: the per-package
record is a Python dict of string fields (`package_id`, `cached_at`,
`display_name`, possibly hand-edited to something else). -/
abbrev CacheEntry := List (String × String)

/-- The cache file's top-level mapping `identifier → entry`. -/
abbrev CacheMap := List (String × CacheEntry)

/-- State of `cache_dir / "winget_cache.json"` as seen by `json.load`:
the file is missing, or its content fails to parse as JSON (this also
covers an empty file, since `json.load` raises on empty input), or it
parses to a mapping. -/
inductive CacheFileState where
  | absent
  | corrupt
  | valid (m : CacheMap)
deriving DecidableEq

/-- `load_all_cached_winget_info` (src lines 64-76): missing file and
parse failure both yield the empty mapping; a parsed file yields its
mapping.  Total - the `except` swallows every parse error. -/
def load_all_cached_winget_info : CacheFileState → CacheMap
  | .absent => []
  | .corrupt => []
  | .valid m => m

/-- `load_cached_winget_info` (src lines 79-82): `all_cache.get(package_id)`. -/
def load_cached_winget_info (cf : CacheFileState) (package_id : String) : Option CacheEntry :=
  dictGet (load_all_cached_winget_info cf) package_id

/-- `save_winget_info_to_cache` (src lines 85-101): reload the whole
mapping, overwrite the entry for `package_id` with the three-field
record, rewrite the file.  `now` is the `datetime.now().isoformat()`
oracle; `writeOk = false` models the swallowed write exception, which
leaves the file as it was. -/
def save_winget_info_to_cache (cf : CacheFileState) (package_id display_name now : String)
    (writeOk : Bool) : CacheFileState :=
  if writeOk then
    .valid (dictInsert (load_all_cached_winget_info cf) package_id
      [("package_id", package_id), ("cached_at", now), ("display_name", display_name)])
  else cf

/-- Outcome of one `subprocess.run` attempt: the process completed (with
captured output and exit status), or the binary was not found
(`FileNotFoundError`), or some other launch exception was raised. -/
inductive LaunchOutcome where
  | completed (stdout stderr : String) (returncode : Int)
  | fileNotFound
  | launchError (msg : String)
deriving DecidableEq

/-- `run_command` (src lines 20-33): a completed process is returned
as-is (any exit code); `FileNotFoundError` becomes
`("", "Command not found: cmd[0]", 1)`; any other exception `e`
becomes `("", str(e), 1)`. -/
def run_command (cmd : List String) (spawn : LaunchOutcome) : String × String × Int :=
  match spawn with
  | .completed o e c => (o, e, c)
  | .fileNotFound => ("", "Command not found: " ++ cmd.headD "", 1)
  | .launchError msg => ("", msg, 1)

/-- The first line of `stdout.split("\n")`, each line stripped, that
contains the literal `[package_id]` (src lines 121-123, with the
`break` making it the first such line). -/
def findBracketLine (stdout package_id : String) : Option String :=
  ((pySplit stdout "\n").map pyStrip).find?
    (fun line => pyContains line ("[" ++ package_id ++ "]"))

/-- Display-name extraction from a matched line (src lines 125-134):
text before the bracket, stripped; then one of the two recognized
localized prefixes is removed if present, otherwise the whole
pre-bracket text is used. -/
def extract_display_name (line package_id : String) : String :=
  let before_bracket := pyStrip ((pySplit line ("[" ++ package_id ++ "]")).headD "")
  if pyStartsWith before_bracket "見つかりました " then
    pyStrip (pyDrop before_bracket ("見つかりました " : String).length)
  else if pyStartsWith before_bracket "Found " then
    pyStrip (pyDrop before_bracket ("Found " : String).length)
  else
    pyStrip before_bracket

/-- Oracle inputs for one `get_app_display_name` call: the outcome of
the `winget show` subprocess, the current timestamp, and whether the
cache-file write (if attempted) succeeds. -/
structure ResolveEnv where
  showOutcome : LaunchOutcome
  now : String
  writeOk : Bool
deriving DecidableEq

/-- The `display_name` computed by src lines 114-138: run
`winget show`, and extract a name from the first bracketed line when
the command succeeded (`returncode == 0 and stdout`); `""` when the
lookup failed or no line matched. -/
def show_extracted_name (package_id : String) (env : ResolveEnv) : String :=
  let r := run_command ["winget", "show", package_id, "--disable-interactivity"] env.showOutcome
  if r.2.2 = 0 ∧ r.1 ≠ "" then
    match findBracketLine r.1 package_id with
    | some line => extract_display_name line package_id
    | none => ""
  else ""

/-- The non-cached part of `get_app_display_name` (src lines 113-142):
the extracted display name, or - when it is empty - the derived
fallback: the last dot-separated segment of the identifier, or the
identifier itself when it has no dot. -/
def resolve_via_show (package_id : String) (env : ResolveEnv) : String :=
  let display_name := show_extracted_name package_id env
  if display_name = "" then
    if pyContains package_id "." then (pySplit package_id ".").getLastD "" else package_id
  else display_name

/-- Lines 144-148 of the source: after a cache miss the resolved or
derived name is saved (when a cache dir was supplied) and returned.
The `Bool` component records that the external `winget show` lookup
was performed on this path. -/
def resolve_and_store (package_id : String) (cacheOpt : Option CacheFileState)
    (env : ResolveEnv) : String × Option CacheFileState × Bool :=
  let display_name := resolve_via_show package_id env
  match cacheOpt with
  | some cf =>
    (display_name, some (save_winget_info_to_cache cf package_id display_name env.now env.writeOk), true)
  | none => (display_name, none, true)

/-- `get_app_display_name` (src lines 104-148).  Result components:
the returned display name, the cache-file state after the call, and
whether the external `winget show` lookup was invoked.  A cached entry
short-circuits only when it is truthy (`if cached_info:` - a present
but empty dict falls through to the lookup). -/
def get_app_display_name (package_id : String) (cacheOpt : Option CacheFileState)
    (env : ResolveEnv) : String × Option CacheFileState × Bool :=
  match cacheOpt with
  | some cf =>
    match load_cached_winget_info cf package_id with
    | some e =>
      if e = [] then resolve_and_store package_id (some cf) env
      else ((dictGet e "display_name").getD "", some cf, false)
    | none => resolve_and_store package_id (some cf) env
  | none => resolve_and_store package_id none env

/-- One entry of `Sources[*].Packages[*]` in the winget export JSON;
`none` fields model missing dict keys (`package.get(...)`). -/
structure ExportPackage where
  packageIdentifier : Option String
  version : Option String
deriving DecidableEq

/-- One entry of the `Sources` array; `none` models a source object
without a `Packages` key. -/
structure ExportSource where
  packagesField : Option (List ExportPackage)
deriving DecidableEq

/-- The parsed winget export file: `none` models a top-level object
without a `Sources` key. -/
structure ExportJson where
  sourcesField : Option (List ExportSource)
deriving DecidableEq

/-- Src lines 169-174: `packages` is the `Packages` list of the first
source object that has a `Packages` key (the loop `break`s there),
or `[]` when no source has one / there is no `Sources` key. -/
def firstPackages (j : ExportJson) : List ExportPackage :=
  match j.sourcesField with
  | none => []
  | some srcs =>
    match srcs.find? (fun s => s.packagesField.isSome) with
    | some s => s.packagesField.getD []
    | none => []

/-- A row of a tabular output file, i.e. one Python dict appended to
`apps` (e.g. `{"PackageId": ..., "Name": ..., "Version": ...}`). -/
abbrev Row := List (String × String)

/-- Oracle inputs for one `get_winget_source_apps` call: the scratch
path `tempfile.mkstemp` returned, the outcome of the `winget export`
subprocess, the result of `json.load` on the scratch file afterwards
(`none` models a raised parse error), the `winget show` outcome per
package id, the clock, and cache-write success. -/
structure ExportEnv where
  tempPath : String
  exportOutcome : LaunchOutcome
  parsedExport : Option ExportJson
  showFor : String → LaunchOutcome
  now : String
  writeOk : Bool

/-- Src lines 190-203: the per-package loop.  Entries with an empty
`PackageIdentifier` are skipped; otherwise the display name is
resolved (threading the cache-file state through the calls) and a
`{PackageId, Name, Version}` row is appended. -/
def processPackages (env : ExportEnv) :
    List ExportPackage → Option CacheFileState → List Row × Option CacheFileState
  | [], c => ([], c)
  | p :: rest, c =>
    let package_id := p.packageIdentifier.getD ""
    let version := p.version.getD "latest"
    if package_id ≠ "" then
      let r := get_app_display_name package_id c ⟨env.showFor package_id, env.now, env.writeOk⟩
      let tail := processPackages env rest r.2.1
      ([("PackageId", package_id), ("Name", r.1), ("Version", version)] :: tail.1, tail.2)
    else
      processPackages env rest c

/-- `get_winget_source_apps` (src lines 151-213).  Result components:
the collected rows, the cache-file state after the call, and whether
the scratch file created by `tempfile.mkstemp` still exists when the
call returns.  `mkstemp` creates the file, so `os.path.exists` is true
at both checks; the `os.unlink` at lines 206-207 sits inside the
`try`, after `json.load` - when `json.load` raises (parse failure),
control jumps to the `except` handler and the unlink is skipped. -/
def get_winget_source_apps (source source_name : String) (cacheOpt : Option CacheFileState)
    (env : ExportEnv) : List Row × Option CacheFileState × Bool :=
  let _ := source_name
  let r := run_command
    ["winget", "export", "-s", source, "-o", env.tempPath,
     "--disable-interactivity", "--include-versions"] env.exportOutcome
  if r.2.2 = 0 then
    match env.parsedExport with
    | none => ([], cacheOpt, true)
    | some j =>
      let pr := processPackages env (firstPackages j) cacheOpt
      (pr.1, pr.2, false)
  else ([], cacheOpt, false)

/-- A written tabular output file: the header row emitted by
`DictWriter.writeheader` and the data rows. -/
structure CsvFile where
  header : List String
  rows : List Row
deriving DecidableEq

/-- `write_csv` (src lines 299-310): empty data writes nothing;
otherwise the file is created with exactly `fieldnames` as its header.
`writeOk = false` models a raised write error (logged, no file). -/
def write_csv (data : List Row) (fieldnames : List String) (writeOk : Bool) : Option CsvFile :=
  if data = [] then none
  else if writeOk then some ⟨fieldnames, data⟩ else none

/-- The file-writing skeleton of `main` (src lines 361-387),
parametrized over the availability-probe results and the record lists
returned by the four exporters (the exporters themselves are the
functions embedded above; their oracles are irrelevant to which files
get written).  Returns the `(filename, file)` pairs produced. -/
def main_outputs (winget_available scoop_available choco_available : Bool)
    (ms_store_apps winget_apps scoop_apps choco_apps : List Row)
    (writeOk : Bool) : List (String × CsvFile) :=
  (if winget_available then
    (if ms_store_apps ≠ [] then
      match write_csv ms_store_apps ["PackageId", "Name", "Version"] writeOk with
      | some f => [("microsoft_store_apps.csv", f)]
      | none => []
    else [])
  else []) ++
  (if winget_available then
    (if winget_apps ≠ [] then
      match write_csv winget_apps ["PackageId", "Name", "Version"] writeOk with
      | some f => [("winget_apps.csv", f)]
      | none => []
    else [])
  else []) ++
  (if scoop_available then
    (if scoop_apps ≠ [] then
      match write_csv scoop_apps ["Name", "Version", "Source"] writeOk with
      | some f => [("scoop_apps.csv", f)]
      | none => []
    else [])
  else []) ++
  (if choco_available then
    (if choco_apps ≠ [] then
      match write_csv choco_apps ["PackageId", "Title", "Version"] writeOk with
      | some f => [("chocolatey_apps.csv", f)]
      | none => []
    else [])
  else [])

/-- Modelled from the spec/claim words (C9): a manager's file appears
iff that manager was probed available and its exporter produced at
least one record, and it carries exactly the specified header columns
for that manager. -/
def expected_outputs (winget_available scoop_available choco_available : Bool)
    (ms_store_apps winget_apps scoop_apps choco_apps : List Row) : List (String × CsvFile) :=
  (if winget_available = true ∧ ms_store_apps ≠ [] then
    [("microsoft_store_apps.csv", ⟨["PackageId", "Name", "Version"], ms_store_apps⟩)] else []) ++
  (if winget_available = true ∧ winget_apps ≠ [] then
    [("winget_apps.csv", ⟨["PackageId", "Name", "Version"], winget_apps⟩)] else []) ++
  (if scoop_available = true ∧ scoop_apps ≠ [] then
    [("scoop_apps.csv", ⟨["Name", "Version", "Source"], scoop_apps⟩)] else []) ++
  (if choco_available = true ∧ choco_apps ≠ [] then
    [("chocolatey_apps.csv", ⟨["PackageId", "Title", "Version"], choco_apps⟩)] else [])

/-- Modelled from the spec/claim words (C3): "the substring after the
last '.' in the identifier, or the identifier itself verbatim when it
contains no '.'". -/
def spec_derived_name (package_id : String) : String :=
  if pyContains package_id "." then
    ⟨(package_id.data.reverse.takeWhile (fun c => !(c == '.'))).reverse⟩
  else package_id

/-! ### Helper lemmas -/

lemma dictGet_dictInsert {α : Type} (m : List (String × α)) (k : String) (v : α) :
    dictGet (dictInsert m k v) k = some v := by
  induction m with
  | nil => simp [dictInsert, dictGet]
  | cons p rest ih =>
    obtain ⟨a, b⟩ := p
    by_cases h : a = k
    · subst h; simp [dictInsert, dictGet]
    · have hb : (a == k) = false := beq_eq_false_iff_ne.mpr h
      simp [dictInsert, dictGet, hb, ih]

lemma takeWhile_append_of_all {α : Type} (p : α → Bool) (a : α) (ys : List α)
    (ha : p a = false) :
    ∀ (xs : List α), (∀ c ∈ xs, p c = true) →
      (xs ++ a :: ys).takeWhile p = xs
  | [], _ => by simp [List.takeWhile_cons, ha]
  | x :: xs, hall => by
    have hx : p x = true := hall x (by simp)
    have ih := takeWhile_append_of_all p a ys ha xs (fun c hc => hall c (by simp [hc]))
    simp [List.takeWhile_cons, hx, ih]

lemma takeWhile_append_of_stop {α : Type} (p : α → Bool) (ys : List α) :
    ∀ (xs : List α), (∃ c ∈ xs, p c = false) →
      (xs ++ ys).takeWhile p = xs.takeWhile p
  | [], h => by simp at h
  | x :: xs, h => by
    by_cases hx : p x = true
    · have : ∃ c ∈ xs, p c = false := by
        obtain ⟨c, hc, hpc⟩ := h
        rcases List.mem_cons.mp hc with rfl | hcm
        · exact absurd hx (by simp [hpc])
        · exact ⟨c, hcm, hpc⟩
      have ih := takeWhile_append_of_stop p ys xs this
      simp [List.takeWhile_cons, hx, ih]
    · simp [List.takeWhile_cons, hx]

lemma pySplitAux_ne_nil (sep : List Char) :
    ∀ (fuel : Nat) (l acc : List Char), pySplitAux sep fuel l acc ≠ []
  | _, [], _ => by simp [pySplitAux]
  | 0, _ :: _, _ => by simp [pySplitAux]
  | fuel + 1, c :: rest, acc => by
    by_cases h : sep.isPrefixOf (c :: rest)
    · simp [pySplitAux, h]
    · simpa [pySplitAux, h] using pySplitAux_ne_nil sep fuel rest (c :: acc)

lemma getLastD_of_ne_nil {α : Type} (xs : List α) (h : xs ≠ []) (d d' : α) :
    xs.getLastD d = xs.getLastD d' := by
  cases xs with
  | nil => exact absurd rfl h
  | cons a t => simp only [List.getLastD_cons]

lemma getLastD_map {α β : Type} (f : α → β) :
    ∀ (xs : List α) (d : α), (xs.map f).getLastD (f d) = f (xs.getLastD d)
  | [], _ => rfl
  | a :: t, d => by
    simp only [List.map_cons, List.getLastD_cons]
    exact getLastD_map f t a

lemma pySplitAux_dot_getLastD :
    ∀ (fuel : Nat) (l acc : List Char), l.length ≤ fuel →
      (pySplitAux ['.'] fuel l acc).getLastD [] =
        (if '.' ∈ l then (l.reverse.takeWhile (fun c => !(c == '.'))).reverse
         else acc.reverse ++ l) := by
  intro fuel
  induction fuel with
  | zero =>
    intro l acc h
    have hl : l = [] := List.length_eq_zero.mp (Nat.le_zero.mp h)
    subst hl
    simp [pySplitAux]
  | succ fuel ih =>
    intro l acc h
    cases l with
    | nil => simp [pySplitAux]
    | cons c rest =>
      have hlen : rest.length ≤ fuel := by
        simpa [List.length_cons, Nat.succ_le_succ_iff] using h
      by_cases hc : c = '.'
      · subst hc
        have hstep : pySplitAux ['.'] (fuel + 1) ('.' :: rest) acc
            = acc.reverse :: pySplitAux ['.'] fuel rest [] := by
          simp [pySplitAux, List.isPrefixOf]
        rw [hstep, List.getLastD_cons,
            getLastD_of_ne_nil _ (pySplitAux_ne_nil _ _ _ _) acc.reverse [],
            ih rest [] hlen]
        by_cases hm : '.' ∈ rest
        · have hms : ∃ x ∈ rest.reverse, (fun c => !(c == '.')) x = false :=
            ⟨'.', List.mem_reverse.mpr hm, by simp⟩
          have htw := takeWhile_append_of_stop (fun c => !(c == '.')) ['.'] rest.reverse hms
          simp [hm, List.reverse_cons, htw]
        · have hall : ∀ x ∈ rest.reverse, (fun c => !(c == '.')) x = true := by
            intro x hx
            have hxr : x ∈ rest := List.mem_reverse.mp hx
            have hxne : x ≠ '.' := fun hxe => hm (hxe ▸ hxr)
            simp [beq_eq_false_iff_ne.mpr hxne]
          have htw := takeWhile_append_of_all (fun c => !(c == '.')) '.' []
            (by simp) rest.reverse hall
          simp [hm, List.reverse_cons, htw]
      · have hb : (('.' : Char) == c) = false := beq_eq_false_iff_ne.mpr (Ne.symm hc)
        have hstep : pySplitAux ['.'] (fuel + 1) (c :: rest) acc
            = pySplitAux ['.'] fuel rest (c :: acc) := by
          simp [pySplitAux, List.isPrefixOf, hb]
        rw [hstep, ih rest (c :: acc) hlen]
        have hcm : ¬ ('.' : Char) = c := Ne.symm hc
        by_cases hm : '.' ∈ rest
        · have hms : ∃ x ∈ rest.reverse, (fun c => !(c == '.')) x = false :=
            ⟨'.', List.mem_reverse.mpr hm, by simp⟩
          have htw := takeWhile_append_of_stop (fun c => !(c == '.')) [c] rest.reverse hms
          simp [hm, hcm, List.reverse_cons, htw]
        · simp [hm, hcm, List.reverse_cons, List.append_assoc]

lemma lastSplitDot (s : String) :
    (pySplit s ".").getLastD "" =
      ⟨(s.data.reverse.takeWhile (fun c => !(c == '.'))).reverse⟩ := by
  have hmap := getLastD_map (fun l => (⟨l⟩ : String))
    (pySplitAux ['.'] s.data.length s.data []) []
  have haux := pySplitAux_dot_getLastD s.data.length s.data [] (le_refl _)
  unfold pySplit
  show (List.map (fun l => (⟨l⟩ : String)) (pySplitAux ['.'] s.data.length s.data [])).getLastD ⟨[]⟩
      = ⟨(s.data.reverse.takeWhile (fun c => !(c == '.'))).reverse⟩
  rw [hmap, haux]
  by_cases hm : '.' ∈ s.data
  · simp [hm]
  · have hall : ∀ x ∈ s.data.reverse, (fun c => !(c == '.')) x = true := by
      intro x hx
      have hxr : x ∈ s.data := List.mem_reverse.mp hx
      have hxne : x ≠ '.' := fun hxe => hm (hxe ▸ hxr)
      simp [beq_eq_false_iff_ne.mpr hxne]
    have : s.data.reverse.takeWhile (fun c => !(c == '.')) = s.data.reverse :=
      List.takeWhile_eq_self_iff.mpr hall
    simp [hm, this]

lemma fallback_eq_spec_derived (package_id : String) :
    (if pyContains package_id "." then (pySplit package_id ".").getLastD "" else package_id)
      = spec_derived_name package_id := by
  unfold spec_derived_name
  by_cases h : pyContains package_id "." = true
  · simp only [h, if_true]
    exact lastSplitDot package_id
  · simp [h]

lemma get_app_of_miss (package_id : String) (cf : CacheFileState) (env : ResolveEnv)
    (h : load_cached_winget_info cf package_id = none) :
    get_app_display_name package_id (some cf) env
      = resolve_and_store package_id (some cf) env := by
  simp [get_app_display_name, h]

lemma get_app_of_empty_entry (package_id : String) (cf : CacheFileState) (env : ResolveEnv)
    (h : load_cached_winget_info cf package_id = some []) :
    get_app_display_name package_id (some cf) env
      = resolve_and_store package_id (some cf) env := by
  simp [get_app_display_name, h]

lemma get_app_of_hit (package_id : String) (cf : CacheFileState) (e : CacheEntry)
    (env : ResolveEnv) (h : load_cached_winget_info cf package_id = some e) (he : e ≠ []) :
    get_app_display_name package_id (some cf) env
      = ((dictGet e "display_name").getD "", some cf, false) := by
  simp [get_app_display_name, h, he]

lemma show_extracted_name_of_fail (package_id : String) (env : ResolveEnv)
    (hfail :
      (run_command ["winget", "show", package_id, "--disable-interactivity"] env.showOutcome).2.2 ≠ 0
      ∨ findBracketLine
          (run_command ["winget", "show", package_id, "--disable-interactivity"] env.showOutcome).1
          package_id = none) :
    show_extracted_name package_id env = "" := by
  simp only [show_extracted_name]
  rcases hfail with h0 | hfind
  · have hcond :
        ¬((run_command ["winget", "show", package_id, "--disable-interactivity"]
            env.showOutcome).2.2 = 0
          ∧ (run_command ["winget", "show", package_id, "--disable-interactivity"]
              env.showOutcome).1 ≠ "") := fun hand => h0 hand.1
    rw [if_neg hcond]
  · by_cases hcond :
      ((run_command ["winget", "show", package_id, "--disable-interactivity"]
          env.showOutcome).2.2 = 0
        ∧ (run_command ["winget", "show", package_id, "--disable-interactivity"]
            env.showOutcome).1 ≠ "")
    · rw [if_pos hcond, hfind]
    · rw [if_neg hcond]

lemma resolve_via_show_of_no_name (package_id : String) (env : ResolveEnv)
    (hfail :
      (run_command ["winget", "show", package_id, "--disable-interactivity"] env.showOutcome).2.2 ≠ 0
      ∨ findBracketLine
          (run_command ["winget", "show", package_id, "--disable-interactivity"] env.showOutcome).1
          package_id = none) :
    resolve_via_show package_id env = spec_derived_name package_id := by
  simp only [resolve_via_show, show_extracted_name_of_fail package_id env hfail, if_true]
  exact fallback_eq_spec_derived package_id

lemma show_extracted_name_of_find (package_id line : String) (env : ResolveEnv)
    (hrc : (run_command ["winget", "show", package_id, "--disable-interactivity"]
      env.showOutcome).2.2 = 0)
    (hout : (run_command ["winget", "show", package_id, "--disable-interactivity"]
      env.showOutcome).1 ≠ "")
    (hfind : findBracketLine
      (run_command ["winget", "show", package_id, "--disable-interactivity"] env.showOutcome).1
      package_id = some line) :
    show_extracted_name package_id env = extract_display_name line package_id := by
  simp only [show_extracted_name]
  rw [if_pos ⟨hrc, hout⟩, hfind]

lemma resolve_via_show_of_find (package_id line : String) (env : ResolveEnv)
    (hrc : (run_command ["winget", "show", package_id, "--disable-interactivity"]
      env.showOutcome).2.2 = 0)
    (hout : (run_command ["winget", "show", package_id, "--disable-interactivity"]
      env.showOutcome).1 ≠ "")
    (hfind : findBracketLine
      (run_command ["winget", "show", package_id, "--disable-interactivity"] env.showOutcome).1
      package_id = some line) :
    resolve_via_show package_id env =
      (if extract_display_name line package_id = "" then spec_derived_name package_id
       else extract_display_name line package_id) := by
  simp only [resolve_via_show, show_extracted_name_of_find package_id line env hrc hout hfind]
  by_cases he : extract_display_name line package_id = ""
  · rw [if_pos he, if_pos he]
    exact fallback_eq_spec_derived package_id
  · rw [if_neg he, if_neg he]

lemma load_after_save (cf : CacheFileState) (package_id dn now : String) :
    load_cached_winget_info (save_winget_info_to_cache cf package_id dn now true) package_id
      = some [("package_id", package_id), ("cached_at", now), ("display_name", dn)] := by
  simp only [save_winget_info_to_cache, if_true, load_cached_winget_info,
    load_all_cached_winget_info]
  exact dictGet_dictInsert _ _ _

lemma second_run_after_store (package_id : String) (cf : CacheFileState) (env env2 : ResolveEnv)
    (hw : env.writeOk = true) :
    get_app_display_name package_id
      (some (save_winget_info_to_cache cf package_id (resolve_via_show package_id env)
        env.now env.writeOk)) env2
      = (resolve_via_show package_id env,
         some (save_winget_info_to_cache cf package_id (resolve_via_show package_id env)
           env.now env.writeOk),
         false) := by
  rw [hw]
  rw [get_app_of_hit package_id _
    [("package_id", package_id), ("cached_at", env.now),
     ("display_name", resolve_via_show package_id env)] env2
    (load_after_save cf package_id (resolve_via_show package_id env) env.now) (by simp)]
  rfl

lemma main_chunk (avail : Bool) (apps : List Row) (nm : String) (hd : List String) :
    (if avail then
      (if apps ≠ [] then
        match write_csv apps hd true with
        | some f => [(nm, f)]
        | none => []
      else [])
    else [])
      = (if avail = true ∧ apps ≠ [] then [(nm, (⟨hd, apps⟩ : CsvFile))] else []) := by
  cases avail
  · simp
  · by_cases ha : apps = []
    · simp [ha]
    · simp [ha, write_csv]

/-! ### Claim theorems -/

/-- Claim C1 (code bug): `get_winget_source_apps` is claimed to remove
its scratch file on every path, but when `winget export` exits 0 and
the scratch file's content fails to parse as JSON, the raised parse
error jumps past the `os.unlink` (which sits inside the `try`), so the
scratch file still exists when the call returns. -/
theorem winget_export_scratch_not_removed_on_parse_failure :
    (get_winget_source_apps "winget" "Winget" none
      ⟨"tmpabc.json", .completed "" "" 0, none, fun _ => .completed "" "" 1, "t", true⟩).2.2
      = true := rfl

/-- Claim C7: `run_command` never raises - a completed command is
returned as-is with any exit code; a missing binary becomes
`("", "Command not found: cmd[0]", 1)`; any other launch failure
`msg` becomes `("", msg, 1)`. -/
theorem run_command_never_raises :
    (∀ (cmd : List String) (o e : String) (c : Int),
      run_command cmd (.completed o e c) = (o, e, c)) ∧
    (∀ (cmd : List String), cmd ≠ [] →
      run_command cmd .fileNotFound = ("", "Command not found: " ++ cmd.headD "", 1)) ∧
    (∀ (cmd : List String) (msg : String),
      run_command cmd (.launchError msg) = ("", msg, 1)) :=
  ⟨fun _ _ _ _ => rfl, fun _ _ => rfl, fun _ _ => rfl⟩

/-- Witness for C7 at a concrete missing binary. -/
theorem run_command_never_raises_witness :
    run_command ["winget", "show"] .fileNotFound = ("", "Command not found: winget", 1) :=
  run_command_never_raises.2.1 ["winget", "show"] (by decide)

/-- Claim C6: `load_all_cached_winget_info` returns the empty mapping
(and never raises - it is a total function) when the cache file is
absent or its content fails to parse; an empty file is a parse
failure (`json.load` raises on empty input), modelled by `corrupt`. -/
theorem load_all_absent_or_corrupt_empty (cf : CacheFileState)
    (h : cf = .absent ∨ cf = .corrupt) :
    load_all_cached_winget_info cf = [] := by
  rcases h with rfl | rfl <;> rfl

/-- Witness for C6 at a corrupt cache file. -/
theorem load_all_absent_or_corrupt_empty_witness :
    load_all_cached_winget_info .corrupt = [] :=
  load_all_absent_or_corrupt_empty .corrupt (Or.inr rfl)

/-- Claim C5: looking an identifier up immediately after storing it
returns an entry whose `display_name` field equals the name that was
stored (the `true` argument is the claim's assumption that the cache
file write succeeded). -/
theorem cache_store_lookup_roundtrip (cf : CacheFileState)
    (package_id display_name now : String) :
    ∃ e : CacheEntry,
      load_cached_winget_info
        (save_winget_info_to_cache cf package_id display_name now true) package_id = some e
      ∧ dictGet e "display_name" = some display_name :=
  ⟨_, load_after_save cf package_id display_name now, rfl⟩

/-- Claim C10: a present but non-empty cache entry lacking the
`display_name` field makes `get_app_display_name` return `""`
immediately: no external lookup, no fallback, no cache write. -/
theorem resolve_entry_without_display_name (package_id : String) (cf : CacheFileState)
    (e : CacheEntry) (env : ResolveEnv)
    (h : load_cached_winget_info cf package_id = some e) (he : e ≠ [])
    (hd : dictGet e "display_name" = none) :
    get_app_display_name package_id (some cf) env = ("", some cf, false) := by
  rw [get_app_of_hit package_id cf e env h he, hd]
  rfl

/-- Witness for C10. -/
theorem resolve_entry_without_display_name_witness :
    get_app_display_name "X" (some (.valid [("X", [("package_id", "X")])]))
      ⟨.completed "" "" 1, "t", true⟩
      = ("", some (.valid [("X", [("package_id", "X")])]), false) :=
  resolve_entry_without_display_name "X" _ [("package_id", "X")] _ rfl (by decide) rfl

/-- Claim C3: on a failed lookup (non-zero exit, or no output line
containing the bracketed identifier) with no cache entry, the resolved
name is the substring after the last `.` of the identifier, or the
identifier itself when it contains no `.`. -/
theorem resolve_failed_lookup_fallback (package_id : String)
    (cacheOpt : Option CacheFileState) (env : ResolveEnv)
    (hmiss : cacheOpt = none
      ∨ ∃ cf, cacheOpt = some cf ∧ load_cached_winget_info cf package_id = none)
    (hfail :
      (run_command ["winget", "show", package_id, "--disable-interactivity"]
        env.showOutcome).2.2 ≠ 0
      ∨ findBracketLine
          (run_command ["winget", "show", package_id, "--disable-interactivity"]
            env.showOutcome).1 package_id = none) :
    (get_app_display_name package_id cacheOpt env).1 = spec_derived_name package_id := by
  rcases hmiss with rfl | ⟨cf, rfl, hm⟩
  · show (resolve_and_store package_id none env).1 = _
    simp [resolve_and_store, resolve_via_show_of_no_name package_id env hfail]
  · rw [get_app_of_miss package_id cf env hm]
    simp [resolve_and_store, resolve_via_show_of_no_name package_id env hfail]

/-- Witness for C3: `resolve("Foo.Bar.Baz")` under a failing lookup is
`"Baz"`, and `resolve("singleword")` is `"singleword"`. -/
theorem resolve_failed_lookup_fallback_witness :
    (get_app_display_name "Foo.Bar.Baz" none ⟨.completed "" "" 1, "t", true⟩).1 = "Baz"
    ∧ (get_app_display_name "singleword" none ⟨.fileNotFound, "t", true⟩).1 = "singleword" := by
  constructor
  · rw [resolve_failed_lookup_fallback "Foo.Bar.Baz" none ⟨.completed "" "" 1, "t", true⟩
      (Or.inl rfl) (Or.inl (by decide))]
    decide
  · rw [resolve_failed_lookup_fallback "singleword" none ⟨.fileNotFound, "t", true⟩
      (Or.inl rfl) (Or.inl (by decide))]
    decide

/-- Counterexample for C4 as stated: the lookup output consists of the
line `[Microsoft.VisualStudioCode]`, so the pre-bracket text (and hence
the claimed display name, prefix-stripped or entire) is empty, yet the
call resolves to the derived fallback `VisualStudioCode`, not to the
empty remainder. -/
theorem resolve_empty_prebracket_counterexample :
    findBracketLine "[Microsoft.VisualStudioCode]" "Microsoft.VisualStudioCode"
      = some "[Microsoft.VisualStudioCode]"
    ∧ extract_display_name "[Microsoft.VisualStudioCode]" "Microsoft.VisualStudioCode" = ""
    ∧ (get_app_display_name "Microsoft.VisualStudioCode" none
        ⟨.completed "[Microsoft.VisualStudioCode]" "" 0, "t", true⟩).1
        = "VisualStudioCode" :=
  ⟨rfl, rfl, rfl⟩

/-- Claim C4 (amended): when the successful lookup's output has a line
containing the bracketed identifier, the resolved name is the
pre-bracket text with one of the two recognized localized prefixes
stripped (an unrecognized prefix is kept) - provided that remainder is
non-empty; an empty remainder falls through to the derived-name
fallback. -/
theorem resolve_bracket_line_extraction (package_id line : String)
    (cacheOpt : Option CacheFileState) (env : ResolveEnv)
    (hmiss : cacheOpt = none
      ∨ ∃ cf, cacheOpt = some cf ∧ load_cached_winget_info cf package_id = none)
    (hrc : (run_command ["winget", "show", package_id, "--disable-interactivity"]
      env.showOutcome).2.2 = 0)
    (hout : (run_command ["winget", "show", package_id, "--disable-interactivity"]
      env.showOutcome).1 ≠ "")
    (hfind : findBracketLine
      (run_command ["winget", "show", package_id, "--disable-interactivity"]
        env.showOutcome).1 package_id = some line) :
    (get_app_display_name package_id cacheOpt env).1 =
      (if extract_display_name line package_id = "" then spec_derived_name package_id
       else extract_display_name line package_id) := by
  rcases hmiss with rfl | ⟨cf, rfl, hm⟩
  · show (resolve_and_store package_id none env).1 = _
    simp [resolve_and_store,
      resolve_via_show_of_find package_id line env hrc hout hfind]
  · rw [get_app_of_miss package_id cf env hm]
    simp [resolve_and_store,
      resolve_via_show_of_find package_id line env hrc hout hfind]

/-- Witness for C4: `Found Visual Studio Code [Microsoft.VisualStudioCode]`
resolves to `Visual Studio Code`. -/
theorem resolve_bracket_line_extraction_witness :
    (get_app_display_name "Microsoft.VisualStudioCode" none
      ⟨.completed "Found Visual Studio Code [Microsoft.VisualStudioCode]" "" 0, "t", true⟩).1
      = "Visual Studio Code" := by
  rw [resolve_bracket_line_extraction "Microsoft.VisualStudioCode"
    "Found Visual Studio Code [Microsoft.VisualStudioCode]" none
    ⟨.completed "Found Visual Studio Code [Microsoft.VisualStudioCode]" "" 0, "t", true⟩
    (Or.inl rfl) (by decide) (by decide) (by decide)]
  decide

/-- Counterexample for C2 as stated: the identifier `A` is present in
the supplied cache (its entry is the empty record), yet the call
invokes the external `winget show` lookup. -/
theorem resolve_show_invoked_despite_cached_identifier :
    load_cached_winget_info (.valid [("A", [])]) "A" = some []
    ∧ (get_app_display_name "A" (some (.valid [("A", [])]))
        ⟨.completed "" "" 1, "t", true⟩).2.2 = true :=
  ⟨rfl, rfl⟩

/-- Claim C2 (amended): (a) an identifier whose cache entry is
non-empty resolves to that entry's stored `display_name` (empty string
when the field is absent) with no external `show` invocation and an
unchanged cache; (b) for any identifier, after a first run against a
supplied cache whose cache write succeeded, a second run against the
produced cache returns the same display name, performs no `show`
invocation, and leaves the cache unchanged. -/
theorem resolve_cache_hit_and_idempotent :
    (∀ (package_id : String) (cf : CacheFileState) (e : CacheEntry) (env : ResolveEnv),
      load_cached_winget_info cf package_id = some e → e ≠ [] →
      get_app_display_name package_id (some cf) env
        = ((dictGet e "display_name").getD "", some cf, false)) ∧
    (∀ (package_id : String) (cf : CacheFileState) (env env2 : ResolveEnv),
      env.writeOk = true →
      ∃ cf1, (get_app_display_name package_id (some cf) env).2.1 = some cf1 ∧
        get_app_display_name package_id (some cf1) env2
          = ((get_app_display_name package_id (some cf) env).1, some cf1, false)) := by
  constructor
  · exact fun package_id cf e env h he => get_app_of_hit package_id cf e env h he
  · intro package_id cf env env2 hw
    cases hload : load_cached_winget_info cf package_id with
    | none =>
      rw [get_app_of_miss package_id cf env hload]
      exact ⟨_, rfl, second_run_after_store package_id cf env env2 hw⟩
    | some e =>
      by_cases he : e = []
      · subst he
        rw [get_app_of_empty_entry package_id cf env hload]
        exact ⟨_, rfl, second_run_after_store package_id cf env env2 hw⟩
      · rw [get_app_of_hit package_id cf e env hload he]
        exact ⟨cf, rfl, by rw [get_app_of_hit package_id cf e env2 hload he]⟩

/-- Witness for C2: a concrete cache hit, and a concrete second run
after a first-run miss. -/
theorem resolve_cache_hit_and_idempotent_witness :
    get_app_display_name "A" (some (.valid [("A", [("display_name", "Alpha")])]))
      ⟨.completed "" "" 1, "t", true⟩
      = ("Alpha", some (.valid [("A", [("display_name", "Alpha")])]), false)
    ∧ ∃ cf1, (get_app_display_name "B.C" (some .absent)
          ⟨.completed "" "" 1, "t", true⟩).2.1 = some cf1 ∧
        get_app_display_name "B.C" (some cf1) ⟨.completed "" "" 1, "u", true⟩
          = ((get_app_display_name "B.C" (some .absent)
              ⟨.completed "" "" 1, "t", true⟩).1, some cf1, false) :=
  ⟨resolve_cache_hit_and_idempotent.1 "A" _ [("display_name", "Alpha")] _ rfl (by decide),
   resolve_cache_hit_and_idempotent.2 "B.C" .absent ⟨.completed "" "" 1, "t", true⟩
     ⟨.completed "" "" 1, "u", true⟩ rfl⟩

/-- Claim C8: a resolve call against a supplied cache in which the
identifier is absent persists the resolved-or-derived name under that
identifier before returning (given that the cache-file write
succeeds). -/
theorem cache_miss_always_persists (package_id : String) (cf : CacheFileState)
    (env : ResolveEnv)
    (hmiss : load_cached_winget_info cf package_id = none) (hw : env.writeOk = true) :
    ∃ cf1 e, (get_app_display_name package_id (some cf) env).2.1 = some cf1
      ∧ load_cached_winget_info cf1 package_id = some e
      ∧ dictGet e "display_name"
          = some (get_app_display_name package_id (some cf) env).1 := by
  rw [get_app_of_miss package_id cf env hmiss]
  refine ⟨save_winget_info_to_cache cf package_id (resolve_via_show package_id env)
    env.now env.writeOk,
    [("package_id", package_id), ("cached_at", env.now),
     ("display_name", resolve_via_show package_id env)],
    rfl, ?_, rfl⟩
  rw [hw]
  exact load_after_save cf package_id (resolve_via_show package_id env) env.now

/-- Witness for C8. -/
theorem cache_miss_always_persists_witness :
    ∃ cf1 e, (get_app_display_name "X.Y" (some .absent)
        ⟨.completed "" "" 1, "t", true⟩).2.1 = some cf1
      ∧ load_cached_winget_info cf1 "X.Y" = some e
      ∧ dictGet e "display_name"
          = some (get_app_display_name "X.Y" (some .absent)
              ⟨.completed "" "" 1, "t", true⟩).1 :=
  cache_miss_always_persists "X.Y" .absent ⟨.completed "" "" 1, "t", true⟩ rfl rfl

/-- Claim C9: `main` writes a manager's tabular file exactly when that
manager was probed available and its exporter produced at least one
record, and a written file carries exactly the specified header
columns for that manager (the `true` argument assumes the file writes
themselves do not fail). -/
theorem main_outputs_written_iff_available_and_nonempty
    (winget_available scoop_available choco_available : Bool)
    (ms_store_apps winget_apps scoop_apps choco_apps : List Row) :
    main_outputs winget_available scoop_available choco_available
      ms_store_apps winget_apps scoop_apps choco_apps true
      = expected_outputs winget_available scoop_available choco_available
          ms_store_apps winget_apps scoop_apps choco_apps := by
  unfold main_outputs expected_outputs
  rw [main_chunk winget_available ms_store_apps "microsoft_store_apps.csv"
      ["PackageId", "Name", "Version"],
    main_chunk winget_available winget_apps "winget_apps.csv"
      ["PackageId", "Name", "Version"],
    main_chunk scoop_available scoop_apps "scoop_apps.csv"
      ["Name", "Version", "Source"],
    main_chunk choco_available choco_apps "chocolatey_apps.csv"
      ["PackageId", "Title", "Version"]]
